import Mathlib

/-!
Shallow embedding of the Conversation Session & Admission Control subsystem
of the Hooma AI chatbot backend (src/app.py, src/admin.py).

Time is modelled as seconds (`Nat`); the Python `datetime` values stored in
session records are wall-clock instants, and every comparison the code makes
is on differences in seconds.  The session store, a Python dict keyed by
session id, is modelled as an association list that preserves insertion
order and replaces in place on update, exactly as a CPython dict does.
-/

/-- role/content/timestamp record stored in a session's `messages` list
(the dicts built at src/app.py lines 357-361 and 372-376). -/
structure Turn where
  role : String
  content : String
  timestamp : Nat
deriving DecidableEq, Repr

/-- role/content pair sent to a provider (src/app.py line 366). -/
structure Msg where
  role : String
  content : String
deriving DecidableEq, Repr

/-- one entry of the `sessions` dict (src/app.py lines 142-147). -/
structure Session where
  created_at : Nat
  messages : List Turn
  user_info : List (String × String)
  last_activity : Nat
deriving DecidableEq, Repr

/-- the in-memory `sessions` dict of src/app.py line 110. -/
abbrev Store : Type := List (String × Session)

/-- dict lookup on an association list: the first binding of the key. -/
def alookup {α : Type} (l : List (String × α)) (k : String) : Option α :=
  match l with
  | [] => none
  | (k0, v) :: rest => if k0 = k then some v else alookup rest k

/-- dict assignment on an association list: replace the first binding in
place, or append a new binding at the end, as a CPython dict does. -/
def aset {α : Type} (l : List (String × α)) (k : String) (v : α) : List (String × α) :=
  match l with
  | [] => [(k, v)]
  | (k0, v0) :: rest => if k0 = k then (k0, v) :: rest else (k0, v0) :: aset rest k v

/-- `dict.update`: write every binding of `upd` into `old`, left to right. -/
def dictUpdate (old upd : List (String × String)) : List (String × String) :=
  upd.foldl (fun acc kv => aset acc kv.1 kv.2) old

/-- `get_session` of src/app.py lines 139-151: create a fresh record with
empty `messages` and `user_info` when the id is absent, otherwise refresh
`last_activity`; either way the record under the id is returned together
with the updated store. -/
def get_session (now : Nat) (store : Store) (session_id : String) : Session × Store :=
  match alookup store session_id with
  | none =>
      let s : Session :=
        { created_at := now, messages := [], user_info := [], last_activity := now }
      (s, aset store session_id s)
  | some s =>
      let s2 := { s with last_activity := now }
      (s2, aset store session_id s2)

/-- `cleanup_old_sessions` of src/app.py lines 153-164: delete every session
whose `now - last_activity` exceeds 86400 seconds (24 hours). -/
def cleanup_old_sessions (now : Nat) (store : Store) : Store :=
  store.filter (fun p => !(decide (86400 < now - p.2.last_activity)))

/-- the `[-10:]` slice of src/app.py line 365: the last 10 turns, or all of
them when fewer exist. -/
def window (messages : List Turn) : List Turn :=
  messages.drop (messages.length - 10)

/-- the canned degraded-service text returned when no provider client is
configured (src/app.py line 207). -/
def SERVICE_UNAVAILABLE_TEXT : String :=
  "Imi pare rau, serviciul AI nu este disponibil momentan. Te rog incearca mai tarziu sau contacteaza-ne direct."

/-- the canned text returned when the live provider call raises
(src/app.py line 211). -/
def TECH_DIFFICULTIES_TEXT : String :=
  "Imi pare rau, intampin probleme tehnice. Te rog incearca din nou in scurt timp sau scrie-ne direct."

/-- value of `config.AI_PROVIDER` (src/app.py line 33); `other` stands for
any string besides "openai" and "anthropic". -/
inductive ProviderKind where
  | openai
  | anthropic
  | other
deriving DecidableEq, Repr

/-- outcome of one live provider call: the returned text, or a raised
exception (network, auth, quota, response parsing). -/
inductive CallOutcome where
  | ok (text : String)
  | raised
deriving DecidableEq, Repr

/-- the system message built at src/app.py line 170: the persona prompt
concatenated with the knowledge-base text. -/
def system_message (sysPrompt knowledge : String) : String :=
  sysPrompt ++ "\n\nKNOWLEDGE BASE:\n" ++ knowledge

/-- `get_ai_response` of src/app.py lines 166-211.  The two live network
calls are inputs (`openaiCall`, `anthropicCall`): the code's `try/except`
maps a raised call to the technical-difficulties text, the unconfigured
branch returns the service-unavailable text.  `openai_client` and
`anthropic_client` say whether the respective client object is non-None
(src/app.py lines 62-68). -/
def get_ai_response (provider : ProviderKind) (openai_client anthropic_client : Bool)
    (sysPrompt knowledge : String)
    (openaiCall : List Msg → CallOutcome)
    (anthropicCall : String → List Msg → CallOutcome)
    (messages : List Msg) : String :=
  match provider, openai_client, anthropic_client with
  | ProviderKind.openai, true, _ =>
      match openaiCall ({ role := "system", content := system_message sysPrompt knowledge } :: messages) with
      | CallOutcome.ok t => t
      | CallOutcome.raised => TECH_DIFFICULTIES_TEXT
  | ProviderKind.anthropic, _, true =>
      match anthropicCall (system_message sysPrompt knowledge)
          (messages.filter (fun m => m.role != "system")) with
      | CallOutcome.ok t => t
      | CallOutcome.raised => TECH_DIFFICULTIES_TEXT
  | _, _, _ => SERVICE_UNAVAILABLE_TEXT

/-- body of the `/api/chat` request (src/app.py lines 118-121); `user_info`
is the optional dict, with `[]` standing for both `None` and `{}` (both are
falsy at src/app.py line 353). -/
structure ChatRequest where
  message : String
  session_id : Option String
  user_info : List (String × String)
deriving DecidableEq, Repr

/-- body of the `/api/chat` response (src/app.py lines 123-126). -/
structure ChatResponse where
  response : String
  session_id : String
  timestamp : Nat
deriving DecidableEq, Repr

/-- the `chat` handler of src/app.py lines 342-386, after validation and
admission.  `t0` is the instant `get_session` stamps, `t1` the user turn's
timestamp, `t2` the assistant turn's timestamp; `freshId` is the value
`generate_session_id()` would produce for this request. -/
def chat (provider : ProviderKind) (oc ac : Bool) (sysPrompt knowledge : String)
    (openaiCall : List Msg → CallOutcome)
    (anthropicCall : String → List Msg → CallOutcome)
    (t0 t1 t2 : Nat) (freshId : String)
    (req : ChatRequest) (store : Store) : ChatResponse × Store :=
  let session_id := match req.session_id with
    | some i => i
    | none => freshId
  let sv := get_session t0 store session_id
  let store1 := sv.2
  let session := match req.user_info with
    | [] => sv.1
    | info => { sv.1 with user_info := dictUpdate sv.1.user_info info }
  let user_message : Turn := { role := "user", content := req.message, timestamp := t1 }
  let session := { session with messages := session.messages ++ [user_message] }
  let recent_messages := window session.messages
  let ai_messages := recent_messages.map (fun m => ({ role := m.role, content := m.content } : Msg))
  let ai_response := get_ai_response provider oc ac sysPrompt knowledge openaiCall anthropicCall ai_messages
  let assistant_message : Turn := { role := "assistant", content := ai_response, timestamp := t2 }
  let session := { session with messages := session.messages ++ [assistant_message] }
  let store2 := aset store1 session_id session
  ({ response := ai_response, session_id := session_id, timestamp := t2 }, store2)

/-- messages of the resolved session once the current user turn has been
appended (src/app.py lines 350-362): the store's record for the resolved id
(fresh and empty when absent) followed by the new user turn. -/
def postUserMessages (t0 t1 : Nat) (freshId : String) (req : ChatRequest) (store : Store) : List Turn :=
  (get_session t0 store (match req.session_id with | some i => i | none => freshId)).1.messages
    ++ [{ role := "user", content := req.message, timestamp := t1 }]

/-- the `ai_messages` list built at src/app.py lines 364-366: the windowed
context projected to role/content pairs. -/
def ai_messages_of (t0 t1 : Nat) (freshId : String) (req : ChatRequest) (store : Store) : List Msg :=
  (window (postUserMessages t0 t1 freshId req store)).map
    (fun m => ({ role := m.role, content := m.content } : Msg))

/-- default of `Config.RATE_LIMIT_PER_MINUTE` when the environment variable
is unset (src/app.py line 45). -/
def RATE_LIMIT_PER_MINUTE : Nat := 30

/-- per-client-address counter state of the fixed-window limiter. -/
structure RateBucket where
  window_start : Nat
  count : Nat
deriving DecidableEq, Repr

/-- Modelled from the spec: the admission algorithm itself lives in the
third-party `slowapi` limiter attached at src/app.py lines 71 and 343 and is
not part of this repository's sources; following the spec's words, a
fixed-window counter keyed by client network address with a 60-second
window: an expired window is reset, the count is incremented, and the call
is rejected exactly when the count exceeds the ceiling. -/
def admission (ceiling : Nat) (now : Nat) (buckets : List (String × RateBucket))
    (key : String) : Bool × List (String × RateBucket) :=
  let b0 := (alookup buckets key).getD { window_start := now, count := 0 }
  let b1 := if b0.window_start + 60 ≤ now then { window_start := now, count := 0 } else b0
  let b2 : RateBucket := { window_start := b1.window_start, count := b1.count + 1 }
  (decide (b2.count ≤ ceiling), aset buckets key b2)

/-- how a chat request can be refused before reaching the pipeline. -/
inductive ChatError where
  | rateLimited
  | validationFailed
deriving DecidableEq, Repr

/-- the shared mutable state on the request path: the sessions dict and the
limiter's buckets. -/
structure AppState where
  sessions : Store
  buckets : List (String × RateBucket)
deriving DecidableEq, Repr

/-- the declared constraints of `ChatRequest.message` (src/app.py line 119):
`min_length=1, max_length=2000`, checked by the framework before the handler
body runs. -/
def validMessage (message : String) : Bool :=
  decide (1 ≤ message.length) && decide (message.length ≤ 2000)

/-- one `/api/chat` request end to end: body validation (src/app.py
lines 118-121), then the rate limit of src/app.py line 343, then the `chat`
handler body; a refused request leaves the session store as it was. -/
def handle (provider : ProviderKind) (oc ac : Bool) (sysPrompt knowledge : String)
    (openaiCall : List Msg → CallOutcome)
    (anthropicCall : String → List Msg → CallOutcome)
    (ceiling now t0 t1 t2 : Nat) (freshId key : String)
    (req : ChatRequest) (st : AppState) : Except ChatError ChatResponse × AppState :=
  if validMessage req.message = false then
    (Except.error ChatError.validationFailed, st)
  else
    let ar := admission ceiling now st.buckets key
    if ar.1 = false then
      (Except.error ChatError.rateLimited, { st with buckets := ar.2 })
    else
      let cr := chat provider oc ac sysPrompt knowledge openaiCall anthropicCall
        t0 t1 t2 freshId req st.sessions
      (Except.ok cr.1, { sessions := cr.2, buckets := ar.2 })

/-- one store-touching operation of the system: a bare `get_session`, a full
chat request, a reaper sweep, or the administrative clear of
src/admin.py lines 190-195. -/
inductive StoreOp where
  | getOrCreate (now : Nat) (sid : String)
  | chatStep (t0 t1 t2 : Nat) (freshId : String) (req : ChatRequest)
  | sweep (now : Nat)
  | clearAll
deriving DecidableEq, Repr

/-- effect of one operation on the session store. -/
def applyOp (provider : ProviderKind) (oc ac : Bool) (sysPrompt knowledge : String)
    (openaiCall : List Msg → CallOutcome)
    (anthropicCall : String → List Msg → CallOutcome)
    (store : Store) : StoreOp → Store
  | StoreOp.getOrCreate now sid => (get_session now store sid).2
  | StoreOp.chatStep t0 t1 t2 freshId req =>
      (chat provider oc ac sysPrompt knowledge openaiCall anthropicCall
        t0 t1 t2 freshId req store).2
  | StoreOp.sweep now => cleanup_old_sessions now store
  | StoreOp.clearAll => []

/-- effect of a sequence of operations, applied left to right. -/
def applyOps (provider : ProviderKind) (oc ac : Bool) (sysPrompt knowledge : String)
    (openaiCall : List Msg → CallOutcome)
    (anthropicCall : String → List Msg → CallOutcome)
    (store : Store) : List StoreOp → Store
  | [] => store
  | op :: ops =>
      applyOps provider oc ac sysPrompt knowledge openaiCall anthropicCall
        (applyOp provider oc ac sysPrompt knowledge openaiCall anthropicCall store op) ops

/-- every stored session is internally consistent (`created_at` at or before
`last_activity`) and was last touched at or before `T`. -/
def InvTime (store : Store) (T : Nat) : Prop :=
  ∀ p ∈ store, p.2.created_at ≤ p.2.last_activity ∧ p.2.last_activity ≤ T

instance (store : Store) (T : Nat) : Decidable (InvTime store T) := by
  unfold InvTime
  infer_instance

/-- the wall-clock instants an operation reads are at or after `T`, and in
program order within the operation. -/
def opOK (T : Nat) : StoreOp → Prop
  | StoreOp.getOrCreate now _ => T ≤ now
  | StoreOp.chatStep t0 t1 t2 _ _ => T ≤ t0 ∧ t0 ≤ t1 ∧ t1 ≤ t2
  | StoreOp.sweep _ => True
  | StoreOp.clearAll => True

instance (T : Nat) (op : StoreOp) : Decidable (opOK T op) := by
  cases op <;> simp only [opOK] <;> infer_instance

/-- latest instant an operation can have stamped into the store. -/
def opEnd (T : Nat) : StoreOp → Nat
  | StoreOp.getOrCreate now _ => now
  | StoreOp.chatStep _ _ t2 _ _ => t2
  | StoreOp.sweep _ => T
  | StoreOp.clearAll => T

/-- the operations of a sequence run at non-decreasing instants. -/
def seqOK (T : Nat) : List StoreOp → Prop
  | [] => True
  | op :: ops => opOK T op ∧ seqOK (opEnd T op) ops

/-- latest instant a sequence of operations can have stamped. -/
def seqEnd (T : Nat) : List StoreOp → Nat
  | [] => T
  | op :: ops => seqEnd (opEnd T op) ops

/-- every turn stored anywhere carries role "user" or "assistant". -/
def RolesOK (store : Store) : Prop :=
  ∀ p ∈ store, ∀ m ∈ p.2.messages, m.role = "user" ∨ m.role = "assistant"

instance (store : Store) : Decidable (RolesOK store) := by
  unfold RolesOK
  infer_instance

/-- report record of `get_session_stats` (src/admin.py lines 62-68);
averages are done in exact rational arithmetic in place of Python floats. -/
structure SessionStats where
  total_sessions : Nat
  active_sessions : Nat
  avg_messages_per_session : ℚ
  avg_session_duration_minutes : ℚ
  total_messages : Nat
deriving DecidableEq, Repr

/-- `get_session_stats` of src/admin.py lines 42-68: session count, count of
sessions active within the hour, and message/duration aggregates with both
averages guarded on the list being non-empty. -/
def get_session_stats (now : Nat) (store : Store) : SessionStats :=
  let message_counts := store.map (fun p => p.2.messages.length)
  let session_durations : List ℚ :=
    store.map (fun p => (((p.2.last_activity : ℤ) - (p.2.created_at : ℤ) : ℤ) : ℚ) / 60)
  { total_sessions := store.length
    active_sessions := store.countP (fun p => decide (now - p.2.last_activity < 3600))
    avg_messages_per_session :=
      if message_counts = [] then 0
      else (message_counts.sum : ℚ) / (message_counts.length : ℚ)
    avg_session_duration_minutes :=
      if session_durations = [] then 0
      else session_durations.sum / (session_durations.length : ℚ)
    total_messages := message_counts.sum }

/-- id a chat request resolves to: the one supplied, else the fresh one
(src/app.py line 347). -/
def resolvedId (freshId : String) (req : ChatRequest) : String :=
  match req.session_id with
  | some i => i
  | none => freshId

/-- user-info field of the resolved session after the optional merge at
src/app.py lines 353-354. -/
def mergedInfo (old upd : List (String × String)) : List (String × String) :=
  match upd with
  | [] => old
  | info => dictUpdate old info

theorem alookup_aset_self {α : Type} (l : List (String × α)) (k : String) (v : α) :
    alookup (aset l k v) k = some v := by
  induction l with
  | nil => simp [aset, alookup]
  | cons hd tl ih =>
      obtain ⟨k0, v0⟩ := hd
      by_cases h : k0 = k
      · simp [aset, alookup, h]
      · simp [aset, alookup, h, ih]

theorem alookup_aset_ne {α : Type} (l : List (String × α)) (k k2 : String) (v : α)
    (h : k2 ≠ k) : alookup (aset l k v) k2 = alookup l k2 := by
  induction l with
  | nil => simp [aset, alookup, Ne.symm h]
  | cons hd tl ih =>
      obtain ⟨k0, v0⟩ := hd
      by_cases h0 : k0 = k
      · subst h0
        simp [aset, alookup, Ne.symm h]
      · by_cases h2 : k0 = k2
        · subst h2
          simp [aset, alookup, h0]
        · simp [aset, alookup, h0, h2, ih]

theorem length_aset_of_none {α : Type} (l : List (String × α)) (k : String) (v : α)
    (h : alookup l k = none) : (aset l k v).length = l.length + 1 := by
  induction l with
  | nil => simp [aset]
  | cons hd tl ih =>
      obtain ⟨k0, v0⟩ := hd
      by_cases h0 : k0 = k
      · simp [alookup, h0] at h
      · simp only [alookup, if_neg h0] at h
        simp [aset, if_neg h0, ih h]

theorem length_aset_of_some {α : Type} (l : List (String × α)) (k : String) (v s : α)
    (h : alookup l k = some s) : (aset l k v).length = l.length := by
  induction l with
  | nil => simp [alookup] at h
  | cons hd tl ih =>
      obtain ⟨k0, v0⟩ := hd
      by_cases h0 : k0 = k
      · simp [aset, h0]
      · simp only [alookup, if_neg h0] at h
        simp [aset, if_neg h0, ih h]

theorem mem_aset {α : Type} (l : List (String × α)) (k : String) (v : α)
    (p : String × α) : p ∈ aset l k v → p = (k, v) ∨ p ∈ l := by
  induction l with
  | nil =>
      intro h
      simpa [aset] using h
  | cons hd tl ih =>
      intro h
      obtain ⟨k0, v0⟩ := hd
      by_cases h0 : k0 = k
      · subst h0
        simp only [aset, if_pos, List.mem_cons] at h
        rcases h with h | h
        · exact Or.inl h
        · exact Or.inr (List.mem_cons_of_mem _ h)
      · simp only [aset, if_neg h0, List.mem_cons] at h
        rcases h with h | h
        · exact Or.inr (List.mem_cons.mpr (Or.inl h))
        · rcases ih h with h2 | h2
          · exact Or.inl h2
          · exact Or.inr (List.mem_cons_of_mem _ h2)

theorem alookup_eq_none_of_not_mem_keys {α : Type} (l : List (String × α)) (k : String) :
    k ∉ l.map Prod.fst → alookup l k = none := by
  induction l with
  | nil => intro _; rfl
  | cons hd tl ih =>
      intro h
      obtain ⟨k0, v0⟩ := hd
      simp only [List.map_cons, List.mem_cons] at h
      push_neg at h
      have hk : ¬k0 = k := fun hh => h.1 hh.symm
      simp [alookup, hk, ih h.2]

theorem alookup_filter {α : Type} (f : String × α → Bool) (l : List (String × α))
    (k : String) (hnd : (l.map Prod.fst).Nodup) :
    alookup (l.filter f) k =
      match alookup l k with
      | none => none
      | some v => if f (k, v) then some v else none := by
  induction l with
  | nil => rfl
  | cons hd tl ih =>
      obtain ⟨k0, v0⟩ := hd
      simp only [List.map_cons, List.nodup_cons] at hnd
      by_cases h0 : k0 = k
      · subst h0
        cases hf : f (k0, v0) with
        | true => simp [List.filter_cons, hf, alookup]
        | false =>
            have hnone : alookup (tl.filter f) k0 = none := by
              apply alookup_eq_none_of_not_mem_keys
              intro hm
              rcases List.mem_map.mp hm with ⟨p, hp, hpk⟩
              exact hnd.1 (List.mem_map.mpr ⟨p, List.mem_of_mem_filter hp, hpk⟩)
            simp [List.filter_cons, hf, alookup, hnone]
      · cases hf : f (k0, v0) with
        | true => simp [List.filter_cons, hf, alookup, h0, ih hnd.2]
        | false => simp [List.filter_cons, hf, alookup, h0, ih hnd.2]

theorem get_session_of_none (now : Nat) (store : Store) (sid : String)
    (h : alookup store sid = none) :
    get_session now store sid =
      ({ created_at := now, messages := [], user_info := [], last_activity := now },
       aset store sid { created_at := now, messages := [], user_info := [], last_activity := now }) := by
  simp [get_session, h]

theorem get_session_of_some (now : Nat) (store : Store) (sid : String) (s : Session)
    (h : alookup store sid = some s) :
    get_session now store sid =
      ({ s with last_activity := now }, aset store sid { s with last_activity := now }) := by
  simp [get_session, h]

theorem chat_eq (provider : ProviderKind) (oc ac : Bool) (sp kb : String)
    (f : List Msg → CallOutcome) (g : String → List Msg → CallOutcome)
    (t0 t1 t2 : Nat) (freshId : String) (req : ChatRequest) (store : Store) :
    chat provider oc ac sp kb f g t0 t1 t2 freshId req store =
      ({ response := get_ai_response provider oc ac sp kb f g
            (ai_messages_of t0 t1 freshId req store),
         session_id := resolvedId freshId req,
         timestamp := t2 },
       aset (get_session t0 store (resolvedId freshId req)).2 (resolvedId freshId req)
         { created_at := (get_session t0 store (resolvedId freshId req)).1.created_at,
           messages := (get_session t0 store (resolvedId freshId req)).1.messages ++
             [{ role := "user", content := req.message, timestamp := t1 },
              { role := "assistant",
                content := get_ai_response provider oc ac sp kb f g
                  (ai_messages_of t0 t1 freshId req store),
                timestamp := t2 }],
           user_info := mergedInfo (get_session t0 store (resolvedId freshId req)).1.user_info
             req.user_info,
           last_activity := (get_session t0 store (resolvedId freshId req)).1.last_activity }) := by
  cases hu : req.user_info with
  | nil =>
      simp [chat, ai_messages_of, postUserMessages, mergedInfo, resolvedId, hu]
  | cons a b =>
      simp [chat, ai_messages_of, postUserMessages, mergedInfo, resolvedId, hu]

theorem mem_of_alookup_eq_some {α : Type} (l : List (String × α)) (k : String) (v : α) :
    alookup l k = some v → (k, v) ∈ l := by
  induction l with
  | nil => intro h; simp [alookup] at h
  | cons hd tl ih =>
      intro h
      obtain ⟨k0, v0⟩ := hd
      by_cases h0 : k0 = k
      · subst h0
        simp only [alookup, if_pos, Option.some.injEq] at h
        subst h
        exact List.mem_cons_self _ _
      · simp only [alookup, if_neg h0] at h
        exact List.mem_cons_of_mem _ (ih h)

theorem not_mem_keys_of_alookup_eq_none {α : Type} (l : List (String × α)) (k : String) :
    alookup l k = none → k ∉ l.map Prod.fst := by
  induction l with
  | nil => intro _ h; simp at h
  | cons hd tl ih =>
      intro h hm
      obtain ⟨k0, v0⟩ := hd
      by_cases h0 : k0 = k
      · simp [alookup, h0] at h
      · simp only [alookup, if_neg h0] at h
        simp only [List.map_cons, List.mem_cons] at hm
        rcases hm with hm | hm
        · exact h0 hm.symm
        · exact ih h hm

/-- C10: the stats computation is total for every store state; on the empty
session store it yields zero sessions, zero active sessions, zero messages
and both averages equal to 0 instead of dividing by zero, the two averages
being guarded on the session list being non-empty. -/
theorem get_session_stats_empty_store :
    ∀ now : Nat,
      get_session_stats now [] =
        { total_sessions := 0, active_sessions := 0, avg_messages_per_session := 0,
          avg_session_duration_minutes := 0, total_messages := 0 } := by
  intro now
  rfl

/-- C2: the context window is exactly the last 10 turns of the session's
messages in stored order when more than 10 exist, and exactly all of them
otherwise; and the chat handler computes it after appending the current user
turn: its response is the gateway applied to the role/content projection of
the window of the post-append message list. -/
theorem window_last_ten_after_user_append :
    (∀ l : List Turn, l.length ≤ 10 → window l = l) ∧
    (∀ l : List Turn, 10 < l.length →
      (window l).length = 10 ∧ l.take (l.length - 10) ++ window l = l) ∧
    (∀ provider oc ac sp kb f g t0 t1 t2 freshId req store,
      (chat provider oc ac sp kb f g t0 t1 t2 freshId req store).1.response =
        get_ai_response provider oc ac sp kb f g
          ((window (postUserMessages t0 t1 freshId req store)).map
            (fun m => ({ role := m.role, content := m.content } : Msg)))) := by
  refine ⟨?_, ?_, ?_⟩
  · intro l h
    simp [window, Nat.sub_eq_zero_of_le h]
  · intro l h
    refine ⟨?_, ?_⟩
    · simp only [window, List.length_drop]
      omega
    · exact List.take_append_drop _ l
  · intro provider oc ac sp kb f g t0 t1 t2 freshId req store
    rw [chat_eq]
    rfl

/-- C3: the provider gateway is total and never propagates an exception to
its caller: with no provider client configured it returns the fixed
service-unavailable text; when the live call raises it returns the fixed
technical-difficulties text; and in every case it returns some string. -/
theorem get_ai_response_total_fallbacks :
    (∀ provider oc ac sp kb f g messages,
      ¬(provider = ProviderKind.openai ∧ oc = true) →
      ¬(provider = ProviderKind.anthropic ∧ ac = true) →
      get_ai_response provider oc ac sp kb f g messages = SERVICE_UNAVAILABLE_TEXT) ∧
    (∀ provider oc ac sp kb f g messages,
      (∀ l, f l = CallOutcome.raised) →
      (∀ s l, g s l = CallOutcome.raised) →
      ((provider = ProviderKind.openai ∧ oc = true) ∨
        (provider = ProviderKind.anthropic ∧ ac = true)) →
      get_ai_response provider oc ac sp kb f g messages = TECH_DIFFICULTIES_TEXT) ∧
    (∀ provider oc ac sp kb f g messages,
      ∃ s : String, get_ai_response provider oc ac sp kb f g messages = s) := by
  refine ⟨?_, ?_, ?_⟩
  · intro provider oc ac sp kb f g messages h1 h2
    cases provider with
    | openai =>
        cases oc with
        | true => exact absurd ⟨rfl, rfl⟩ h1
        | false => cases ac <;> rfl
    | anthropic =>
        cases ac with
        | true => exact absurd ⟨rfl, rfl⟩ h2
        | false => cases oc <;> rfl
    | other => cases oc <;> cases ac <;> rfl
  · intro provider oc ac sp kb f g messages hf hg h
    rcases h with ⟨hp, ho⟩ | ⟨hp, ha⟩
    · subst hp; subst ho
      cases ac <;> simp [get_ai_response, hf]
    · subst hp; subst ha
      cases oc <;> simp [get_ai_response, hg]
  · intro provider oc ac sp kb f g messages
    exact ⟨_, rfl⟩

/-- C5: one sweep evicts exactly the sessions whose idle time `now -
last_activity` exceeds 24 hours (86400 s) and leaves every other session
untouched: a session idle 25 hours (90000 s) is absent afterwards, one idle
23 hours (82800 s) survives unchanged, and sweeping twice equals sweeping
once. -/
theorem cleanup_old_sessions_spec :
    (∀ (now : Nat) (store : Store) (sid : String) (s : Session),
      (store.map Prod.fst).Nodup → alookup store sid = some s →
      alookup (cleanup_old_sessions now store) sid =
        if 86400 < now - s.last_activity then none else some s) ∧
    (∀ (now : Nat) (store : Store) (sid : String) (s : Session),
      (store.map Prod.fst).Nodup → alookup store sid = some s →
      now - s.last_activity = 90000 →
      alookup (cleanup_old_sessions now store) sid = none) ∧
    (∀ (now : Nat) (store : Store) (sid : String) (s : Session),
      (store.map Prod.fst).Nodup → alookup store sid = some s →
      now - s.last_activity = 82800 →
      alookup (cleanup_old_sessions now store) sid = some s) ∧
    (∀ (now : Nat) (store : Store),
      cleanup_old_sessions now (cleanup_old_sessions now store) =
        cleanup_old_sessions now store) := by
  have base : ∀ (now : Nat) (store : Store) (sid : String) (s : Session),
      (store.map Prod.fst).Nodup → alookup store sid = some s →
      alookup (cleanup_old_sessions now store) sid =
        if 86400 < now - s.last_activity then none else some s := by
    intro now store sid s hnd h
    rw [cleanup_old_sessions, alookup_filter _ _ _ hnd, h]
    by_cases hc : 86400 < now - s.last_activity <;> simp [hc]
  refine ⟨base, ?_, ?_, ?_⟩
  · intro now store sid s hnd h hidle
    rw [base now store sid s hnd h, hidle]
    simp
  · intro now store sid s hnd h hidle
    rw [base now store sid s hnd h, hidle]
    simp
  · intro now store
    simp [cleanup_old_sessions, List.filter_filter]

/-- C6: `get_session` creates a session with empty messages and empty user
info when the id is absent (inserting it under that id), returns the
existing record unchanged apart from a refreshed `last_activity` when
present (leaving every other id untouched and the store size unchanged),
and two sequential calls with the same previously unknown id create exactly
one session. -/
theorem get_session_spec :
    (∀ (now : Nat) (store : Store) (sid : String),
      alookup store sid = none →
      (get_session now store sid).1 =
          { created_at := now, messages := [], user_info := [], last_activity := now } ∧
      alookup (get_session now store sid).2 sid = some (get_session now store sid).1 ∧
      (get_session now store sid).2.length = store.length + 1) ∧
    (∀ (now : Nat) (store : Store) (sid : String) (s : Session),
      alookup store sid = some s →
      (get_session now store sid).1 = { s with last_activity := now } ∧
      alookup (get_session now store sid).2 sid = some { s with last_activity := now } ∧
      (∀ sid2, sid2 ≠ sid → alookup (get_session now store sid).2 sid2 = alookup store sid2) ∧
      (get_session now store sid).2.length = store.length) ∧
    (∀ (t0 t1 : Nat) (store : Store) (sid : String),
      alookup store sid = none →
      (get_session t1 (get_session t0 store sid).2 sid).2.length = store.length + 1) := by
  refine ⟨?_, ?_, ?_⟩
  · intro now store sid h
    rw [get_session_of_none now store sid h]
    exact ⟨rfl, alookup_aset_self _ _ _, length_aset_of_none _ _ _ h⟩
  · intro now store sid s h
    rw [get_session_of_some now store sid s h]
    exact ⟨rfl, alookup_aset_self _ _ _,
      fun sid2 h2 => alookup_aset_ne _ _ _ _ h2,
      length_aset_of_some _ _ _ _ h⟩
  · intro t0 t1 store sid h
    rw [get_session_of_none t0 store sid h]
    have h1 : alookup (aset store sid
        { created_at := t0, messages := [], user_info := [], last_activity := t0 }) sid =
        some { created_at := t0, messages := [], user_info := [], last_activity := t0 } :=
      alookup_aset_self _ _ _
    rw [get_session_of_some _ _ _ _ h1]
    rw [length_aset_of_some _ _ _ _ (alookup_aset_self _ _ _)]
    exact length_aset_of_none _ _ _ h

/-- C4: admission is a fixed 60-second window per client key with a
configurable ceiling defaulting to 30: inside a live window each call
increments the key's count and is rejected exactly when the count exceeds
the ceiling; an elapsed window resets the counter so admission succeeds
again; with ceiling 3 the 4th call in one window for one key is rejected;
and a rejected request surfaces as a rate-limit failure with the session
store untouched. -/
theorem admission_fixed_window_spec :
    RATE_LIMIT_PER_MINUTE = 30 ∧
    (∀ (ceiling now : Nat) (buckets : List (String × RateBucket)) (key : String)
        (b : RateBucket),
      alookup buckets key = some b → now < b.window_start + 60 →
      admission ceiling now buckets key =
        (decide (b.count + 1 ≤ ceiling),
         aset buckets key { window_start := b.window_start, count := b.count + 1 }) ∧
      ((admission ceiling now buckets key).1 = false ↔ ceiling < b.count + 1)) ∧
    (∀ (ceiling now : Nat) (buckets : List (String × RateBucket)) (key : String)
        (b : RateBucket),
      alookup buckets key = some b → b.window_start + 60 ≤ now →
      admission ceiling now buckets key =
        (decide (1 ≤ ceiling), aset buckets key { window_start := now, count := 1 }) ∧
      (1 ≤ ceiling → (admission ceiling now buckets key).1 = true)) ∧
    (∀ (now : Nat) (key : String),
      (admission 3 now [] key).1 = true ∧
      (admission 3 now (admission 3 now [] key).2 key).1 = true ∧
      (admission 3 now (admission 3 now (admission 3 now [] key).2 key).2 key).1 = true ∧
      (admission 3 now (admission 3 now (admission 3 now
        (admission 3 now [] key).2 key).2 key).2 key).1 = false) ∧
    (∀ provider oc ac sp kb f g ceiling now t0 t1 t2 freshId key req
        (st : AppState),
      validMessage req.message = true →
      (admission ceiling now st.buckets key).1 = false →
      handle provider oc ac sp kb f g ceiling now t0 t1 t2 freshId key req st =
        (Except.error ChatError.rateLimited,
         { sessions := st.sessions, buckets := (admission ceiling now st.buckets key).2 })) := by
  refine ⟨rfl, ?_, ?_, ?_, ?_⟩
  · intro ceiling now buckets key b hb hwin
    have hx : ¬(b.window_start + 60 ≤ now) := by omega
    constructor
    · simp [admission, hb, hx]
    · simp [admission, hb, hx]
  · intro ceiling now buckets key b hb hwin
    constructor
    · simp [admission, hb, hwin]
    · intro hc
      simp [admission, hb, hwin]
      omega
  · intro now key
    have hx : ¬(now + 60 ≤ now) := by omega
    refine ⟨?_, ?_, ?_, ?_⟩
    · simp [admission, alookup, hx]
    · simp [admission, alookup, aset, hx]
    · simp [admission, alookup, aset, hx]
    · simp [admission, alookup, aset, hx]
  · intro provider oc ac sp kb f g ceiling now t0 t1 t2 freshId key req st hv hr
    simp [handle, hv, hr]

/-- C8: a chat request whose message is empty or longer than 2000
characters is refused at validation before any core processing: the request
fails with a validation error and the application state, the session store
included, is exactly as it was. -/
theorem validation_rejects_before_any_mutation :
    ∀ provider oc ac sp kb f g ceiling now t0 t1 t2 freshId key req
      (st : AppState),
      (req.message.length = 0 ∨ 2000 < req.message.length) →
      handle provider oc ac sp kb f g ceiling now t0 t1 t2 freshId key req st =
        (Except.error ChatError.validationFailed, st) ∧
      (handle provider oc ac sp kb f g ceiling now t0 t1 t2 freshId key req st).2.sessions =
        st.sessions := by
  intro provider oc ac sp kb f g ceiling now t0 t1 t2 freshId key req st h
  have hv : validMessage req.message = false := by
    rcases h with h | h <;> simp [validMessage] <;> omega
  constructor
  · simp [handle, hv]
  · simp [handle, hv]

/-- closed instance of the validation-rejection theorem: the empty message
is refused and the state is untouched. -/
theorem validation_rejects_before_any_mutation_witness :
    handle ProviderKind.other false false "" "" (fun _ => CallOutcome.raised)
        (fun _ _ => CallOutcome.raised) 30 0 0 0 0 "session_x" "client_x"
        { message := "", session_id := none, user_info := [] }
        { sessions := [], buckets := [] } =
      (Except.error ChatError.validationFailed, { sessions := [], buckets := [] }) ∧
    (handle ProviderKind.other false false "" "" (fun _ => CallOutcome.raised)
        (fun _ _ => CallOutcome.raised) 30 0 0 0 0 "session_x" "client_x"
        { message := "", session_id := none, user_info := [] }
        { sessions := [], buckets := [] }).2.sessions = [] :=
  validation_rejects_before_any_mutation ProviderKind.other false false "" ""
    (fun _ => CallOutcome.raised) (fun _ _ => CallOutcome.raised) 30 0 0 0 0
    "session_x" "client_x" { message := "", session_id := none, user_info := [] }
    { sessions := [], buckets := [] } (Or.inl rfl)

theorem invTime_mono {store : Store} {T T2 : Nat} (h : T ≤ T2) (hi : InvTime store T) :
    InvTime store T2 :=
  fun p hp => ⟨(hi p hp).1, le_trans (hi p hp).2 h⟩

theorem invTime_aset {store : Store} {T : Nat} {k : String} {s : Session}
    (hi : InvTime store T) (h1 : s.created_at ≤ s.last_activity)
    (h2 : s.last_activity ≤ T) : InvTime (aset store k s) T := by
  intro p hp
  rcases mem_aset store k s p hp with h | h
  · subst h
    exact ⟨h1, h2⟩
  · exact hi p h

theorem invTime_get_session_snd (now T : Nat) (store : Store) (sid : String)
    (hi : InvTime store T) (h : T ≤ now) :
    InvTime (get_session now store sid).2 now := by
  cases hl : alookup store sid with
  | none =>
      rw [get_session_of_none _ _ _ hl]
      exact invTime_aset (invTime_mono h hi) le_rfl le_rfl
  | some s =>
      rw [get_session_of_some _ _ _ _ hl]
      have hs := hi _ (mem_of_alookup_eq_some _ _ _ hl)
      exact invTime_aset (invTime_mono h hi) (le_trans hs.1 (le_trans hs.2 h)) le_rfl

theorem get_session_fst_bounds (now T : Nat) (store : Store) (sid : String)
    (hi : InvTime store T) (h : T ≤ now) :
    (get_session now store sid).1.created_at ≤ (get_session now store sid).1.last_activity ∧
    (get_session now store sid).1.last_activity = now := by
  cases hl : alookup store sid with
  | none =>
      rw [get_session_of_none _ _ _ hl]
      exact ⟨le_rfl, rfl⟩
  | some s =>
      rw [get_session_of_some _ _ _ _ hl]
      have hs := hi _ (mem_of_alookup_eq_some _ _ _ hl)
      exact ⟨le_trans hs.1 (le_trans hs.2 h), rfl⟩

theorem invTime_chat (provider : ProviderKind) (oc ac : Bool) (sp kb : String)
    (f : List Msg → CallOutcome) (g : String → List Msg → CallOutcome)
    (t0 t1 t2 : Nat) (freshId : String) (req : ChatRequest) (store : Store) (T : Nat)
    (hi : InvTime store T) (h0 : T ≤ t0) (h2 : t0 ≤ t2) :
    InvTime (chat provider oc ac sp kb f g t0 t1 t2 freshId req store).2 t2 := by
  rw [chat_eq]
  have hstore :=
    invTime_mono h2 (invTime_get_session_snd t0 T store (resolvedId freshId req) hi h0)
  have hbase := get_session_fst_bounds t0 T store (resolvedId freshId req) hi h0
  refine invTime_aset hstore hbase.1 ?_
  rw [hbase.2]
  exact h2

theorem invTime_applyOp (provider : ProviderKind) (oc ac : Bool) (sp kb : String)
    (f : List Msg → CallOutcome) (g : String → List Msg → CallOutcome)
    (store : Store) (T : Nat) (op : StoreOp)
    (hi : InvTime store T) (hok : opOK T op) :
    InvTime (applyOp provider oc ac sp kb f g store op) (opEnd T op) := by
  cases op with
  | getOrCreate now sid =>
      exact invTime_get_session_snd now T store sid hi hok
  | chatStep t0 t1 t2 freshId req =>
      exact invTime_chat provider oc ac sp kb f g t0 t1 t2 freshId req store T hi
        hok.1 (le_trans hok.2.1 hok.2.2)
  | sweep now =>
      intro p hp
      exact hi p (List.mem_of_mem_filter hp)
  | clearAll =>
      intro p hp
      simp [applyOp] at hp

theorem invTime_applyOps (provider : ProviderKind) (oc ac : Bool) (sp kb : String)
    (f : List Msg → CallOutcome) (g : String → List Msg → CallOutcome)
    (store : Store) (T : Nat) (ops : List StoreOp)
    (hi : InvTime store T) (hseq : seqOK T ops) :
    InvTime (applyOps provider oc ac sp kb f g store ops) (seqEnd T ops) := by
  induction ops generalizing store T with
  | nil => exact hi
  | cons op ops ih =>
      exact ih (applyOp provider oc ac sp kb f g store op) (opEnd T op)
        (invTime_applyOp provider oc ac sp kb f g store T op hi hseq.1) hseq.2

theorem messages_extend_applyOp (provider : ProviderKind) (oc ac : Bool) (sp kb : String)
    (f : List Msg → CallOutcome) (g : String → List Msg → CallOutcome)
    (store : Store) (op : StoreOp) (sid : String) (s1 : Session)
    (hnd : (store.map Prod.fst).Nodup) (h : alookup store sid = some s1) :
    (alookup (applyOp provider oc ac sp kb f g store op) sid = none →
      (∃ now, op = StoreOp.sweep now) ∨ op = StoreOp.clearAll) ∧
    (∀ s2, alookup (applyOp provider oc ac sp kb f g store op) sid = some s2 →
      ∃ tail, s2.messages = s1.messages ++ tail) := by
  cases op with
  | getOrCreate now sid2 =>
      simp only [applyOp]
      by_cases he : sid2 = sid
      · subst he
        rw [get_session_of_some _ _ _ _ h]
        constructor
        · intro hn
          rw [alookup_aset_self] at hn
          exact absurd hn (by simp)
        · intro s2 hs2
          rw [alookup_aset_self] at hs2
          obtain rfl := Option.some.inj hs2
          exact ⟨[], by simp⟩
      · have hne : sid ≠ sid2 := fun hh => he hh.symm
        have hsame : alookup (get_session now store sid2).2 sid = some s1 := by
          cases hl : alookup store sid2 with
          | none => rw [get_session_of_none _ _ _ hl, alookup_aset_ne _ _ _ _ hne, h]
          | some s => rw [get_session_of_some _ _ _ _ hl, alookup_aset_ne _ _ _ _ hne, h]
        rw [hsame]
        constructor
        · intro hn
          exact absurd hn (by simp)
        · intro s2 hs2
          obtain rfl := Option.some.inj hs2
          exact ⟨[], by simp⟩
  | chatStep t0 t1 t2 freshId req =>
      simp only [applyOp]
      rw [chat_eq]
      by_cases he : resolvedId freshId req = sid
      · rw [he, get_session_of_some _ _ _ _ h]
        constructor
        · intro hn
          rw [alookup_aset_self] at hn
          exact absurd hn (by simp)
        · intro s2 hs2
          rw [alookup_aset_self] at hs2
          obtain rfl := Option.some.inj hs2
          exact ⟨_, rfl⟩
      · have hne : sid ≠ resolvedId freshId req := fun hh => he hh.symm
        have hsame :
            alookup (get_session t0 store (resolvedId freshId req)).2 sid = some s1 := by
          cases hl : alookup store (resolvedId freshId req) with
          | none => rw [get_session_of_none _ _ _ hl, alookup_aset_ne _ _ _ _ hne, h]
          | some s => rw [get_session_of_some _ _ _ _ hl, alookup_aset_ne _ _ _ _ hne, h]
        rw [alookup_aset_ne _ _ _ _ hne, hsame]
        constructor
        · intro hn
          exact absurd hn (by simp)
        · intro s2 hs2
          obtain rfl := Option.some.inj hs2
          exact ⟨[], by simp⟩
  | sweep now =>
      simp only [applyOp]
      rw [cleanup_old_sessions, alookup_filter _ _ _ hnd, h]
      constructor
      · intro _
        exact Or.inl ⟨now, rfl⟩
      · intro s2 hs2
        by_cases hc : 86400 < now - s1.last_activity
        · simp [hc] at hs2
        · simp [hc] at hs2
          obtain rfl := hs2.symm
          exact ⟨[], by simp⟩
  | clearAll =>
      simp only [applyOp]
      constructor
      · intro _
        exact Or.inr trivial
      · intro s2 hs2
        exact absurd hs2 (by simp [alookup])

/-- C7: after every sequence of store operations run at non-decreasing
instants, every stored session satisfies `last_activity >= created_at`; and
no single operation other than a reaper sweep or the administrative clear
removes a session, while any surviving session's messages extend the
previous ones in place (nothing is removed or reordered). -/
theorem session_invariant_and_append_only :
    (∀ provider oc ac sp kb f g (store : Store) (T : Nat) (ops : List StoreOp),
      InvTime store T → seqOK T ops →
      ∀ p ∈ applyOps provider oc ac sp kb f g store ops,
        p.2.created_at ≤ p.2.last_activity) ∧
    (∀ provider oc ac sp kb f g (store : Store) (op : StoreOp) (sid : String)
        (s1 : Session),
      (store.map Prod.fst).Nodup → alookup store sid = some s1 →
      (alookup (applyOp provider oc ac sp kb f g store op) sid = none →
        (∃ now, op = StoreOp.sweep now) ∨ op = StoreOp.clearAll) ∧
      (∀ s2, alookup (applyOp provider oc ac sp kb f g store op) sid = some s2 →
        ∃ tail, s2.messages = s1.messages ++ tail)) := by
  constructor
  · intro provider oc ac sp kb f g store T ops hi hseq p hp
    exact (invTime_applyOps provider oc ac sp kb f g store T ops hi hseq p hp).1
  · intro provider oc ac sp kb f g store op sid s1 hnd h
    exact messages_extend_applyOp provider oc ac sp kb f g store op sid s1 hnd h

theorem rolesOK_aset {store : Store} {k : String} {s : Session}
    (h : RolesOK store)
    (hs : ∀ m ∈ s.messages, m.role = "user" ∨ m.role = "assistant") :
    RolesOK (aset store k s) := by
  intro p hp
  rcases mem_aset store k s p hp with hh | hh
  · subst hh
    exact hs
  · exact h p hh

theorem rolesOK_get_session_fst (now : Nat) (store : Store) (sid : String)
    (h : RolesOK store) :
    ∀ m ∈ (get_session now store sid).1.messages,
      m.role = "user" ∨ m.role = "assistant" := by
  cases hl : alookup store sid with
  | none =>
      rw [get_session_of_none _ _ _ hl]
      intro m hm
      simp at hm
  | some s =>
      rw [get_session_of_some _ _ _ _ hl]
      exact h _ (mem_of_alookup_eq_some _ _ _ hl)

theorem rolesOK_get_session_snd (now : Nat) (store : Store) (sid : String)
    (h : RolesOK store) : RolesOK (get_session now store sid).2 := by
  cases hl : alookup store sid with
  | none =>
      rw [get_session_of_none _ _ _ hl]
      refine rolesOK_aset h ?_
      intro m hm
      simp at hm
  | some s =>
      rw [get_session_of_some _ _ _ _ hl]
      exact rolesOK_aset h (h _ (mem_of_alookup_eq_some _ _ _ hl))

theorem roles_ai_messages_of (t0 t1 : Nat) (freshId : String) (req : ChatRequest)
    (store : Store) (h : RolesOK store) :
    ∀ m ∈ ai_messages_of t0 t1 freshId req store,
      m.role = "user" ∨ m.role = "assistant" := by
  intro m hm
  rw [ai_messages_of, window] at hm
  rcases List.mem_map.mp hm with ⟨t, ht, rfl⟩
  have ht2 : t ∈ postUserMessages t0 t1 freshId req store := List.drop_subset _ _ ht
  rw [postUserMessages] at ht2
  rcases List.mem_append.mp ht2 with ht3 | ht3
  · exact rolesOK_get_session_fst t0 store _ h t ht3
  · left
    simp at ht3
    rw [ht3]

theorem rolesOK_chat (provider : ProviderKind) (oc ac : Bool) (sp kb : String)
    (f : List Msg → CallOutcome) (g : String → List Msg → CallOutcome)
    (t0 t1 t2 : Nat) (freshId : String) (req : ChatRequest) (store : Store)
    (h : RolesOK store) :
    RolesOK (chat provider oc ac sp kb f g t0 t1 t2 freshId req store).2 := by
  rw [chat_eq]
  refine rolesOK_aset (rolesOK_get_session_snd t0 store _ h) ?_
  intro m hm
  simp only [List.mem_append, List.mem_cons, List.mem_singleton] at hm
  rcases hm with hm | hm | hm | hm
  · exact rolesOK_get_session_fst t0 store _ h m hm
  · left
    rw [hm]
  · right
    rw [hm]
  · simp at hm

theorem rolesOK_applyOp (provider : ProviderKind) (oc ac : Bool) (sp kb : String)
    (f : List Msg → CallOutcome) (g : String → List Msg → CallOutcome)
    (store : Store) (op : StoreOp) (h : RolesOK store) :
    RolesOK (applyOp provider oc ac sp kb f g store op) := by
  cases op with
  | getOrCreate now sid => exact rolesOK_get_session_snd now store sid h
  | chatStep t0 t1 t2 freshId req =>
      exact rolesOK_chat provider oc ac sp kb f g t0 t1 t2 freshId req store h
  | sweep now =>
      intro p hp
      exact h p (List.mem_of_mem_filter hp)
  | clearAll =>
      intro p hp
      simp [applyOp] at hp

/-- C9: the gateway injects the system prompt (persona text concatenated
with the knowledge-base text) as a leading system-role message for the
OpenAI-style variant and as the dedicated system field for the
Anthropic-style variant; the list sent to the Anthropic-style variant is
the windowed list stripped of system-role turns, and since every windowed
turn list of the pipeline holds only user/assistant roles, no turn whose
role is not user or assistant is ever sent to it. -/
theorem gateway_prompt_injection_and_role_strip :
    (∀ sp kb, system_message sp kb = sp ++ "\n\nKNOWLEDGE BASE:\n" ++ kb) ∧
    (∀ ac sp kb f g messages,
      get_ai_response ProviderKind.openai true ac sp kb f g messages =
        match f ({ role := "system", content := system_message sp kb } :: messages) with
        | CallOutcome.ok t => t
        | CallOutcome.raised => TECH_DIFFICULTIES_TEXT) ∧
    (∀ oc sp kb f g messages,
      get_ai_response ProviderKind.anthropic oc true sp kb f g messages =
        match g (system_message sp kb) (messages.filter (fun m => m.role != "system")) with
        | CallOutcome.ok t => t
        | CallOutcome.raised => TECH_DIFFICULTIES_TEXT) ∧
    (∀ messages : List Msg,
      (∀ m ∈ messages, m.role = "user" ∨ m.role = "assistant") →
      messages.filter (fun m => m.role != "system") = messages ∧
      ∀ m ∈ messages.filter (fun m => m.role != "system"),
        m.role = "user" ∨ m.role = "assistant") ∧
    (∀ t0 t1 freshId req store, RolesOK store →
      ∀ m ∈ ai_messages_of t0 t1 freshId req store,
        m.role = "user" ∨ m.role = "assistant") ∧
    (∀ provider oc ac sp kb f g store op, RolesOK store →
      RolesOK (applyOp provider oc ac sp kb f g store op)) := by
  refine ⟨fun sp kb => rfl, fun ac sp kb f g messages => rfl,
    fun oc sp kb f g messages => rfl, ?_, ?_, ?_⟩
  · intro messages h
    have hf : messages.filter (fun m => m.role != "system") = messages := by
      apply List.filter_eq_self.mpr
      intro m hm
      rcases h m hm with hr | hr <;> simp [hr]
    refine ⟨hf, ?_⟩
    rw [hf]
    exact h
  · intro t0 t1 freshId req store h
    exact roles_ai_messages_of t0 t1 freshId req store h
  · intro provider oc ac sp kb f g store op h
    exact rolesOK_applyOp provider oc ac sp kb f g store op h
